import Mathlib

/-!
Shallow embedding of `src/mmda/types/document.py` (the `Document` class of the
mmda repository) together with the contracts of its external collaborators
(symbols, images, annotations, indexers, reserved names), and proofs checking
the specification of the repository against it.

Python-to-Lean conventions used throughout:
* A Python `dict` is an insertion-ordered association list `List (String × _)`;
  `lookupKey` / `setKey` below give the `d[k]` read / `d[k] = v` write
  semantics (overwrite in place, append when fresh).
* A raised exception is an `Err` value.  A mutating method returns its
  post-state together with `Option Err`: on `some e` the returned state is the
  state at the point of the raise, matching Python semantics where mutations
  performed before the raise stay committed.
* `Document.DEFAULT_FIELDS` is a class-level list and `__init__` executes
  `self._fields = self.DEFAULT_FIELDS`, so every instance's `_fields` is an
  alias of the one class-level list object.  The embedding therefore keeps a
  single `defaultFields` list in a `World` value holding every constructed
  document; a document is identified by its index in `World.docs`.
-/

/-- Modelled from the spec: `mmda.types.names` (imported by the source but not
under `src/`) provides the reserved field-name constant for the symbols field. -/
def Symbols : String := "symbols"

/-- Modelled from the spec: `mmda.types.names` (imported by the source but not
under `src/`) provides the reserved field-name constant for the images field. -/
def Images : String := "images"

/-- Read access `d[k]` (and the `k in d` test, via `Option.isSome`) on a Python
dict represented as an insertion-ordered association list. -/
def lookupKey {α : Type} : List (String × α) → String → Option α
  | [], _ => none
  | (k, v) :: rest, key => if k = key then some v else lookupKey rest key

/-- Write access `d[k] = v` on a Python dict represented as an insertion-ordered
association list: overwrites in place when the key exists, appends otherwise. -/
def setKey {α : Type} : List (String × α) → String → α → List (String × α)
  | [], key, v => [(key, v)]
  | (k, w) :: rest, key, v =>
      if k = key then (key, v) :: rest else (k, w) :: setKey rest key v

/-- External collaborator `mmda.types.document_elements.DocumentSymbols`
(imported by the source but not under `src/`).  Modelled from the spec: it
exposes `page_count`, and iterating the object (as `Document.to_json` does via
`getattr(self, "symbols")`) yields units whose serialized `to_json()` values we
represent directly as the list `units` of opaque JSON values. -/
structure DocumentSymbols where
  page_count : Nat
  units : List Nat
deriving DecidableEq

/-- External collaborator `mmda.types.image.Image` (imported by the source but
not under `src/`).  Modelled from the spec: it exposes `save(path)` and
`load(path)` and has a serialized form; `data` stands for the image payload. -/
structure Image where
  data : Nat
deriving DecidableEq

/-- Serialized form of an image (opaque, e.g. a base64 string). -/
def Image.to_json (img : Image) : Nat := img.data

/-- External collaborator `mmda.types.annotation.Annotation` (imported by the
source but not under `src/`).  Modelled from the spec: it carries a
back-reference `doc` to its owning Document (here: the document's index in the
world, `none` while unbound) and a serializable payload. -/
structure Ann where
  doc : Option Nat
  payload : Nat
deriving DecidableEq

/-- The `annotation.annotate(doc)` call (the spec's `link_to_document`):
associates the annotation with the document and returns the bound version.
Its external side effects on the per-field indexer are outside this model. -/
def Ann.annotate (a : Ann) (d : Nat) : Ann := { a with doc := some d }

/-- Serialized form of an annotation (`annotation.to_json()`). -/
def Ann.to_json (a : Ann) : Nat := a.payload

/-- External collaborator `mmda.types.annotation.DocSpanGroupIndexer` (imported
by the source but not under `src/`): constructed by `_register_field` with the
document's page count (`DocSpanGroupIndexer(num_pages=self.symbols.page_count)`).
Its query structure is out of scope; only its presence per field matters here. -/
structure DocSpanGroupIndexer where
  num_pages : Nat
deriving DecidableEq

/-- Exceptions raised by the embedded code.  The `assertion*` constructors are
all Python `AssertionError`s, distinguished here by the assert statement that
raised them; the spec's error taxonomy maps onto them as follows:
`InvalidFieldNameError` = the four asserts of `_register_field`,
`PreconditionError` = `assertionAddFieldMissing` / `assertionAddIndexerMissing`
/ `assertionSaveNeedsDir`, `ConsistencyError` = `assertionAddDocMismatch`,
`UnknownFieldError` = `keyError`, `NotFoundError` = `fileNotFoundError`. -/
inductive Err where
  /-- `assert not field_name.startswith("_")` in `_register_field`. -/
  | assertionLeadingUnderscore
  /-- `assert field_name not in self.fields` in `_register_field`. -/
  | assertionFieldExists
  /-- `assert field_name not in ["fields"]` in `_register_field`. -/
  | assertionFieldNamedFields
  /-- `assert field_name not in dir(self)` in `_register_field`. -/
  | assertionDirConflict (field_name : String)
  /-- `assert field_name in self._fields` in `_add`. -/
  | assertionAddFieldMissing
  /-- `assert field_name in self._indexers` in `_add`. -/
  | assertionAddIndexerMissing
  /-- `assert annotation.doc == self` in `_add`. -/
  | assertionAddDocMismatch
  /-- `assert os.path.isdir(path)` in `save`. -/
  | assertionSaveNeedsDir
  /-- Python `AttributeError`. -/
  | attributeError
  /-- Python `KeyError`. -/
  | keyError
  /-- Python `TypeError`. -/
  | typeError
  /-- Python `ValueError`. -/
  | valueError
  /-- Python `FileNotFoundError`. -/
  | fileNotFoundError
deriving DecidableEq

/-- The per-instance state of one `Document` object: the `symbols` and `images`
attributes set by `__init__`, the instance's `_indexers` dict, and the dynamic
attributes later installed by `setattr(self, field_name, field_annotations)`.
The instance's `_fields` is not here: it aliases the class-level list kept in
`World.defaultFields`. -/
structure DocObj where
  symbols : DocumentSymbols
  images : Option (List Image)
  indexers : List (String × DocSpanGroupIndexer)
  attrs : List (String × List Ann)
deriving DecidableEq

/-- The state of the embedded program: the single class-level
`Document.DEFAULT_FIELDS` list (which every instance's `_fields`, and hence the
`fields` property, aliases) and the constructed `Document` instances.  A
document is named by its index in `docs`. -/
structure World where
  defaultFields : List String
  docs : List DocObj
deriving DecidableEq

/-- The state at module import time: `DEFAULT_FIELDS = [Symbols, Images]` and
no instances constructed yet. -/
def World.init : World := ⟨[Symbols, Images], []⟩

/-- `Document.__init__(symbols, images)`: stores the two attributes, points
`_fields` at the class-level list (a no-op in this representation, where that
list is world state) and creates the empty `_indexers` dict.  Returns the new
world and the new document's identity. -/
def World.newDoc (w : World) (symbols : DocumentSymbols)
    (images : Option (List Image)) : World × Nat :=
  ({ w with docs := w.docs ++ [⟨symbols, images, [], []⟩] }, w.docs.length)

/-- The document object for identity `d` (meaningful when `d < w.docs.length`;
the fallback object only pads the out-of-range case, which no theorem uses). -/
def getDoc (w : World) (d : Nat) : DocObj :=
  (w.docs[d]?).getD ⟨⟨0, []⟩, none, [], []⟩

/-- Replaces document `d`'s object (no-op when `d` is out of range). -/
def updateDoc (w : World) (d : Nat) (f : DocObj → DocObj) : World :=
  { w with docs := w.docs.set d (f (getDoc w d)) }

/-- The `setattr(self, field_name, field_annotations)` statement shared by
`_annotate` and `_add`: installs or overwrites a dynamic instance attribute. -/
def setAttrW (w : World) (d : Nat) (field_name : String)
    (field_annotations : List Ann) : World :=
  updateDoc w d (fun doc => { doc with attrs := setKey doc.attrs field_name field_annotations })

namespace Document

/-- Names bound in the class namespace of `Document` (its class attributes):
the `DEFAULT_FIELDS` list, the `fields` property and the methods.  Instance
attributes such as `_indexers`, `symbols` or `images` are not among them.
Dunder entries inherited from `object` and generated by `@dataclass` are
omitted: every lookup performed on this list in the source is either for
`_indexers` (in `find`) or for a candidate field name that has already passed
the leading-underscore check, and neither can equal a dunder name. -/
def documentClassAttrs : List String :=
  ["DEFAULT_FIELDS", "fields", "_register_field", "_annotate", "annotate",
   "_add", "add", "to_json", "save", "from_json", "load", "find"]

/-- Python `dir(self)` for instance `d`, restricted as in `documentClassAttrs`:
class attributes plus the instance's attribute names (`symbols`, `images`,
`_fields`, `_indexers`, and every field previously installed by `setattr`). -/
def dirDoc (w : World) (d : Nat) : List String :=
  documentClassAttrs ++ ["symbols", "images", "_fields", "_indexers"]
    ++ List.map Prod.fst (getDoc w d).attrs

/-- The two mutations a successful `_register_field(field_name)` call performs
on document `d`'s world: `self._fields.append(field_name)` on the class-level
list, and
`self._indexers[field_name] = DocSpanGroupIndexer(num_pages=self.symbols.page_count)`
on the instance's indexer dict. -/
def registerWorld (w : World) (d : Nat) (field_name : String) : World :=
  updateDoc { w with defaultFields := w.defaultFields ++ [field_name] } d
    (fun doc =>
      { doc with indexers := setKey doc.indexers field_name ⟨(getDoc w d).symbols.page_count⟩ })

/-- Embeds `Document._register_field` (src/mmda/types/document.py, lines
39-46): four asserts — the first, `field_name.startswith("_")`, is the prefix
test on the character sequence — then the two mutations of `registerWorld`.
All four asserts precede both mutations, so a failing call leaves the world
unchanged. -/
def _register_field (w : World) (d : Nat) (field_name : String) :
    World × Option Err :=
  if List.isPrefixOf "_".toList field_name.toList then
    (w, some Err.assertionLeadingUnderscore)
  else if field_name ∈ w.defaultFields then
    (w, some Err.assertionFieldExists)
  else if field_name ∈ ["fields"] then
    (w, some Err.assertionFieldNamedFields)
  else if field_name ∈ dirDoc w d then
    (w, some (Err.assertionDirConflict field_name))
  else
    (registerWorld w d field_name, none)

/-- One call of the binding phase inside `_annotate` / one entry of its
recorded call trace. -/
inductive BindStep where
  /-- `self._register_field(field_name)` completed. -/
  | registered (field_name : String)
  /-- `annotation.annotate(self)` was called for annotation `a` on document
  `d` (the source rebinds the loop variable and discards the result). -/
  | linked (a : Ann) (d : Nat)
deriving DecidableEq

/-- Post-state, raised exception (if any) and call trace of a mutating call. -/
structure CallResult where
  world : World
  err : Option Err
  events : List BindStep
deriving DecidableEq

/-- Embeds `Document._annotate` (src/mmda/types/document.py, lines 48-55):
`self._register_field(field_name)`, then the loop
`for annotation in field_annotations: annotation = annotation.annotate(self)`
(whose per-iteration results are discarded — the loop variable is rebound —
and whose external indexer side effects are outside this model; the calls are
recorded as `linked` events), then
`setattr(self, field_name, field_annotations)` storing the original input
sequence. -/
def _annotate (w : World) (d : Nat) (field_name : String)
    (field_annotations : List Ann) : CallResult :=
  match _register_field w d field_name with
  | (w1, some e) => ⟨w1, some e, []⟩
  | (w1, none) =>
      ⟨setAttrW w1 d field_name field_annotations, none,
        BindStep.registered field_name
          :: List.map (fun a => BindStep.linked (Ann.annotate a d) d) field_annotations⟩

/-- Embeds `Document.annotate` (src/mmda/types/document.py, lines 57-62): the
`**annotations` keyword arguments, an insertion-ordered dict with distinct
keys, arrive as an association list; each pair is processed by `_annotate` in
order.  An exception aborts the loop, keeping the already-committed prefix. -/
def annotate (w : World) (d : Nat) :
    List (String × List Ann) → CallResult
  | [] => ⟨w, none, []⟩
  | (field_name, field_annotations) :: rest =>
      let r := _annotate w d field_name field_annotations
      match r.err with
      | some _ => r
      | none =>
          let r2 := annotate r.world d rest
          ⟨r2.world, r2.err, r.events ++ r2.events⟩

/-- Python `annotation.doc == self` as evaluated inside `_add`.  `Document` is
decorated `@dataclass` and declares no dataclass fields (`DEFAULT_FIELDS` is
unannotated and `__init__` is hand-written), so the generated `__eq__` compares
the empty field tuples of the two operands and returns `True` whenever the
other operand is a `Document` instance.  Hence the comparison holds for a
back-reference to any document whatsoever and fails only for `None`. -/
def docBackrefEq : Option Nat → Nat → Bool
  | none, _ => false
  | some _, _ => true

/-- Embeds `Document._add` (src/mmda/types/document.py, lines 64-80): asserts
`field_name in self._fields` (the class-level list) and
`field_name in self._indexers` (this instance's dict), then asserts
`annotation.doc == self` for each annotation in order, then
`setattr(self, field_name, field_annotations)`.  All asserts precede the only
mutation. -/
def _add (w : World) (d : Nat) (field_name : String)
    (field_annotations : List Ann) : World × Option Err :=
  if field_name ∉ w.defaultFields then
    (w, some Err.assertionAddFieldMissing)
  else if (lookupKey (getDoc w d).indexers field_name).isNone then
    (w, some Err.assertionAddIndexerMissing)
  else
    match List.find? (fun a => ! docBackrefEq a.doc d) field_annotations with
    | some _ => (w, some Err.assertionAddDocMismatch)
    | none => (setAttrW w d field_name field_annotations, none)

/-- Embeds `Document.add` (src/mmda/types/document.py, lines 82-88): processes
the `**annotations` pairs by `_add` in order; an exception aborts the loop,
keeping the already-committed prefix.  The add path performs no binding calls,
so its trace is empty. -/
def add (w : World) (d : Nat) : List (String × List Ann) → CallResult
  | [] => ⟨w, none, []⟩
  | (field_name, field_annotations) :: rest =>
      match _add w d field_name field_annotations with
      | (w1, some e) => ⟨w1, some e, []⟩
      | (w1, none) => add w1 d rest

/-- The value of `[group.to_json() for group in getattr(self, field)]` for one
field name, as used by `to_json`.  Attribute lookup order follows Python: the
`__init__`-set attributes and the `setattr`-installed fields live in the
instance dict (`symbols` and `images` can never be shadowed there, since
`_register_field` refuses both names).  Iterating `getattr(self, "symbols")`
yields the symbol units; iterating `images` when it is `None` raises
`TypeError`.  A name resolving to a class attribute or missing entirely raises
(`TypeError` for a non-iterable method, `AttributeError` when absent); no claim
distinguishes those cases and both are modelled as `attributeError` here. -/
def serialize_field (w : World) (d : Nat) (field : String) :
    Except Err (List Nat) :=
  if field = Symbols then
    .ok (getDoc w d).symbols.units
  else if field = Images then
    match (getDoc w d).images with
    | none => .error Err.typeError
    | some imgs => .ok (List.map Image.to_json imgs)
  else
    match lookupKey (getDoc w d).attrs field with
    | some anns => .ok (List.map Ann.to_json anns)
    | none => .error Err.attributeError

/-- The dict comprehension of `to_json`: builds the output dict field by field
in order, aborting on the first raising field. -/
def buildFields (w : World) (d : Nat) :
    List String → List (String × List Nat) → Except Err (List (String × List Nat))
  | [], acc => .ok acc
  | field :: rest, acc =>
      match serialize_field w d field with
      | .error e => .error e
      | .ok v => buildFields w d rest (setKey acc field v)

/-- Embeds `Document.to_json` (src/mmda/types/document.py, lines 90-108):
`fields` defaults to `self.fields` (the class-level list); when `with_images`
is false the `Images` name is filtered out of the requested list; the result
maps each remaining field to the serialized values of its contents. -/
def to_json (w : World) (d : Nat) (fields : Option (List String))
    (with_images : Bool) : Except Err (List (String × List Nat)) :=
  let fs := match fields with
    | none => w.defaultFields
    | some given => given
  let fs := if with_images then fs else List.filter (fun field => decide (field ≠ Images)) fs
  buildFields w d fs []

/-- Where a file written by `save` lands: at `path` itself (single-file layout)
or at `os.path.join(path, name)` (directory layout). -/
inductive SaveTarget where
  | atPath
  | inDir (name : String)
deriving DecidableEq

/-- Content of a file written by `save`: a JSON body (`json.dump`) or one page
image (`image.save`). -/
inductive SaveFile where
  | json (body : List (String × List Nat))
  | image (img : Image)
deriving DecidableEq

/-- Embeds `Document.save` (src/mmda/types/document.py, lines 110-136).
Returns the sequence of file writes performed (in order) together with the
raised exception, if any; `is_dir` stands for `os.path.isdir(path)`.  In the
directory layout the `isdir` assert runs first, then the JSON body is computed
with `with_images and images_in_json` (= false there, excluding images from the
body), `document.json` is written, and each page image is written as
`f"{pid}.png"` in `enumerate(self.images)` order; when `images` is `None` the
`enumerate` raises `TypeError` after `document.json` was already written. -/
def save (w : World) (d : Nat) (is_dir : Bool) (fields : Option (List String))
    (with_images : Bool) (images_in_json : Bool) :
    List (SaveTarget × SaveFile) × Option Err :=
  if with_images && ! images_in_json then
    if ! is_dir then ([], some Err.assertionSaveNeedsDir)
    else
      match to_json w d fields (with_images && images_in_json) with
      | .error e => ([], some e)
      | .ok body =>
          match (getDoc w d).images with
          | none => ([(SaveTarget.inDir "document.json", SaveFile.json body)], some Err.typeError)
          | some imgs =>
              ((SaveTarget.inDir "document.json", SaveFile.json body)
                :: List.map (fun p => (SaveTarget.inDir (toString p.1 ++ ".png"), SaveFile.image p.2))
                     imgs.enum,
               none)
  else
    match to_json w d fields (with_images && images_in_json) with
    | .error e => ([], some e)
    | .ok body => ([(SaveTarget.atPath, SaveFile.json body)], none)

/-- Result of calling `.pop` on a `dict_keys` view (`doc_dict.keys()`): the
view object supports only iteration and membership and has no `pop` method, so
the call raises `AttributeError` unconditionally. -/
def dictKeysPop (_keys : List String) (_k : String) : Except Err Empty :=
  .error Err.attributeError

/-- Embeds `Document.from_json` (src/mmda/types/document.py, lines 138-157).
The body begins with `fields = doc_dict.keys()` followed by
`symbols = fields.pop(Symbols)`; since the `dict_keys` view has no `pop`
method, every call raises `AttributeError` there, and the rest of the body
(popping `Images`, constructing the document and re-attaching each remaining
field via `_add`) is unreachable. -/
def from_json (_w : World) (doc_dict : List (String × List Nat)) :
    Except Err (World × Nat) :=
  match dictKeysPop (List.map Prod.fst doc_dict) Symbols with
  | .error e => .error e
  | .ok impossible => impossible.elim

end Document

/-- Worker for `removeAll`: the fuel argument (at least the list length at
every call) only makes the recursion structural, so that concrete runs reduce
definitionally; each step consumes one fuel unit and at least one character. -/
def removeAllFuel (old : List Char) : Nat → List Char → List Char
  | _, [] => []
  | 0, l => l
  | fuel + 1, c :: cs =>
      if old ≠ [] ∧ List.isPrefixOf old (c :: cs) then
        removeAllFuel old fuel (List.drop (old.length - 1) cs)
      else
        c :: removeAllFuel old fuel cs

/-- Python `str.replace(old, "")` over character lists: removes every
occurrence of `old`, scanning left to right (as `load` does with
`.replace('.png', '')`). -/
def removeAll (old : List Char) (l : List Char) : List Char :=
  removeAllFuel old l.length l

/-- Python `int(s)` on the strings produced from page-image file names:
succeeds exactly on nonempty all-digit strings (signs, whitespace and
underscore separators, which `int` would also accept, cannot occur in a
`*.png` glob result's stripped basename and are not modelled). -/
def parseNat? (cs : List Char) : Option Nat :=
  if cs = [] ∨ ¬ cs.all Char.isDigit then none
  else some (cs.foldl (fun n c => n * 10 + (c.toNat - 48)) 0)

/-- The sort key `int(os.path.basename(x).replace('.png', ''))` used by
`Document.load` (the basenames are already relative here). -/
def pageIndexKey (name : String) : Option Nat :=
  parseNat? (removeAll ".png".toList name.toList)

/-- Stable insertion of an element into a key-sorted list: an element moves
left past exactly the elements with a strictly greater key, matching the
stability guarantee of Python `sorted`. -/
def insertByKey (x : String × Nat) : List (String × Nat) → List (String × Nat)
  | [] => [x]
  | y :: ys => if x.2 ≤ y.2 then x :: y :: ys else y :: insertByKey x ys

/-- Pairs each file name with its numeric key, failing with `ValueError` when
some name's stripped basename is not an integer literal (as `int` would). -/
def keyedNames : List String → Option (List (String × Nat))
  | [] => some []
  | n :: rest =>
      match pageIndexKey n, keyedNames rest with
      | some k, some ks => some ((n, k) :: ks)
      | _, _ => none

/-- The `sorted(image_files, key=lambda x: int(...))` call of `Document.load`:
numeric (not lexicographic) ascending order on the page index. -/
def sortImageFiles (names : List String) : Except Err (List String) :=
  match keyedNames names with
  | none => .error Err.valueError
  | some keyed => .ok (List.map Prod.fst (List.foldr insertByKey [] keyed))

/-- The slice of the file system that `Document.load(path)` consults:
whether `path` is a directory, the basenames matched by
`glob(os.path.join(path, "*.png"))` (in glob order), whether the JSON file to
be opened exists, its parsed content when it does, and the page-image bytes. -/
structure FS where
  is_dir : Bool
  png_names : List String
  has_json_file : Bool
  json_data : List (String × List Nat)
  png_bytes : List (String × Nat)
deriving DecidableEq

/-- External `Image.load(path)`: reads the image file's bytes from the
file system. -/
def Image.load (fs : FS) (name : String) : Image :=
  ⟨(lookupKey fs.png_bytes name).getD 0⟩

namespace Document

/-- Embeds `Document.load` (src/mmda/types/document.py, lines 159-181).  For a
directory: the `*.png` names are globbed, sorted numerically and loaded as
images, then `document.json` is opened (raising `FileNotFoundError` when
absent), parsed and passed to `from_json` — which raises `AttributeError` on
every input — and the loaded images would finally be assigned onto the
resulting document.  For a plain file: the JSON at `path` itself is opened and
`images` stays `None`. -/
def load (w : World) (fs : FS) : Except Err (World × Nat) :=
  if fs.is_dir then
    match sortImageFiles fs.png_names with
    | .error e => .error e
    | .ok sorted_names =>
        let images := List.map (Image.load fs) sorted_names
        if ! fs.has_json_file then .error Err.fileNotFoundError
        else
          match from_json w fs.json_data with
          | .error e => .error e
          | .ok (w1, d) =>
              .ok (updateDoc w1 d (fun doc => { doc with images := some images }), d)
  else
    if ! fs.has_json_file then .error Err.fileNotFoundError
    else
      match from_json w fs.json_data with
      | .error e => .error e
      | .ok (w1, d) =>
          .ok (updateDoc w1 d (fun doc => { doc with images := none }), d)

/-- Embeds `Document.find` (src/mmda/types/document.py, lines 183-189).
`find` is decorated `@classmethod`, so its `self` parameter is bound to the
class object rather than an instance; `self._indexers` therefore looks
`_indexers` up among the class attributes, where it does not exist, and every
call raises `AttributeError`.  The dispatch
`self._indexers[field_name].index(query)` is unreachable (were `_indexers`
a class attribute, an unregistered name would raise `KeyError` there). -/
def find (_query : Nat) (_field_name : String) : Except Err (List Ann) :=
  if "_indexers" ∈ documentClassAttrs then
    .error Err.keyError
  else
    .error Err.attributeError

end Document

/-- The two reserved field names that `DEFAULT_FIELDS` starts with. -/
def reservedNames : List String := [Symbols, Images]

/-- Whether document object `doc` has an `_indexers` entry for `name`. -/
def hasIndexerEntry (name : String) (doc : DocObj) : Bool :=
  (lookupKey doc.indexers name).isSome

/-- How many constructed documents have an `_indexers` entry for `name`. -/
def indexerDocCount (w : World) (name : String) : Nat :=
  List.countP (hasIndexerEntry name) w.docs

/-- The worlds reachable by the public lifecycle of the source: module import,
`Document(...)` construction, and `annotate` / `add` calls on a constructed
document.  The post-state of a raising call is reachable too — in Python the
mutations committed before the raise persist. -/
inductive Reachable : World → Prop where
  | init : Reachable World.init
  | newDoc {w : World} (symbols : DocumentSymbols) (images : Option (List Image)) :
      Reachable w → Reachable (World.newDoc w symbols images).1
  | annotateCall {w : World} {d : Nat} (pairs : List (String × List Ann)) :
      Reachable w → d < w.docs.length → Reachable (Document.annotate w d pairs).world
  | addCall {w : World} {d : Nat} (pairs : List (String × List Ann)) :
      Reachable w → d < w.docs.length → Reachable (Document.add w d pairs).world

/-- The registry invariant that actually holds of the code: the reserved names
are always in the (class-level, shared) field list; every other name in the
field list has an `_indexers` entry in exactly one constructed document (the
one whose `annotate` registered it); and indexer entries exist only for such
registered, non-reserved names. -/
def RegistryInv (w : World) : Prop :=
  (∀ name, name ∈ reservedNames → name ∈ w.defaultFields)
  ∧ (∀ name, name ∈ w.defaultFields → name ∉ reservedNames → indexerDocCount w name = 1)
  ∧ (∀ doc, doc ∈ w.docs → ∀ name, hasIndexerEntry name doc = true →
      name ∈ w.defaultFields ∧ name ∉ reservedNames)

/-- Concrete symbol stream used by the example states: two pages. -/
def exSyms : DocumentSymbols := ⟨2, [5, 6]⟩

/-- Concrete page images used by the example states. -/
def exImgs : List Image := [⟨11⟩, ⟨12⟩]

/-- Example: a fresh world with one document (symbols plus two page images). -/
def exW : World := (World.newDoc World.init exSyms (some exImgs)).1

/-- Example: `exW` after document 0 ran `annotate(tokens=[Ann(None, 7)])`. -/
def exWtok : World :=
  (Document.annotate exW 0 [("tokens", [⟨none, 7⟩])]).world

/-- Example: `exWtok` after a second document (no images) was constructed —
after the field `"tokens"` had been registered by document 0. -/
def exW2 : World := (World.newDoc exWtok exSyms none).1

/-- Example directory for `load`: `document.json` present, three page images
whose numeric order differs from their lexicographic order. -/
def fsOk : FS := ⟨true, ["10.png", "9.png", "2.png"], true, [(Symbols, [5, 6])], []⟩

/-- Example directory for `load`: no `document.json`. -/
def fsNoJson : FS := ⟨true, [], false, [], []⟩

/-- Example plain file for `load`: the JSON file exists at the path itself. -/
def fsFile : FS := ⟨false, [], true, [(Symbols, [5, 6])], []⟩

theorem lookupKey_setKey_self {α : Type} (l : List (String × α)) (k : String) (v : α) :
    lookupKey (setKey l k v) k = some v := by
  induction l with
  | nil => simp [setKey, lookupKey]
  | cons hd tl ih =>
      obtain ⟨k', v'⟩ := hd
      by_cases h : k' = k
      · simp [setKey, lookupKey, h]
      · simp [setKey, lookupKey, h, ih]

theorem lookupKey_setKey_ne {α : Type} (l : List (String × α)) {k k' : String} (v : α)
    (h : k' ≠ k) : lookupKey (setKey l k v) k' = lookupKey l k' := by
  induction l with
  | nil => simp [setKey, lookupKey, Ne.symm h]
  | cons hd tl ih =>
      obtain ⟨k0, v0⟩ := hd
      by_cases h0 : k0 = k
      · subst h0
        simp [setKey, lookupKey, Ne.symm h]
      · simp only [setKey, if_neg h0, lookupKey]
        by_cases h1 : k0 = k'
        · simp [h1]
        · simp [h1, ih]

theorem lookupKey_isSome_setKey {α : Type} (l : List (String × α)) (k k' : String) (v : α) :
    (lookupKey (setKey l k v) k').isSome = true →
      k' = k ∨ (lookupKey l k').isSome = true := by
  intro h
  by_cases hk : k' = k
  · exact Or.inl hk
  · exact Or.inr (by rwa [lookupKey_setKey_ne l v hk] at h)

theorem not_mem_map_fst_setKey {α : Type} (l : List (String × α)) {k k' : String} (v : α)
    (hne : k' ≠ k) (hl : k' ∉ List.map Prod.fst l) :
    k' ∉ List.map Prod.fst (setKey l k v) := by
  induction l with
  | nil => simpa [setKey] using hne
  | cons hd tl ih =>
      obtain ⟨k0, v0⟩ := hd
      simp only [List.map_cons, List.mem_cons, not_or] at hl
      by_cases h0 : k0 = k
      · subst h0
        rw [setKey, if_pos rfl]
        simp only [List.map_cons, List.mem_cons, not_or]
        exact ⟨hne, hl.2⟩
      · simp only [setKey, if_neg h0, List.map_cons, List.mem_cons, not_or]
        exact ⟨hl.1, ih hl.2⟩

theorem getDoc_updateDoc_self (w : World) (d : Nat) (f : DocObj → DocObj)
    (hd : d < w.docs.length) : getDoc (updateDoc w d f) d = f (getDoc w d) := by
  simp [getDoc, updateDoc, List.getElem?_set_eq_of_lt _ hd]

theorem docs_length_updateDoc (w : World) (d : Nat) (f : DocObj → DocObj) :
    (updateDoc w d f).docs.length = w.docs.length := by
  simp [updateDoc]

theorem defaultFields_updateDoc (w : World) (d : Nat) (f : DocObj → DocObj) :
    (updateDoc w d f).defaultFields = w.defaultFields := by
  simp [updateDoc]

theorem register_fail_eq {w : World} {d : Nat} {n : String} {w1 : World} {e : Err}
    (h : Document._register_field w d n = (w1, some e)) : w1 = w := by
  unfold Document._register_field at h
  split_ifs at h <;> simp_all

theorem register_ok_eq {w : World} {d : Nat} {n : String} {w1 : World}
    (h : Document._register_field w d n = (w1, none)) :
    w1 = Document.registerWorld w d n
    ∧ ¬ List.isPrefixOf "_".toList n.toList
    ∧ n ∉ w.defaultFields ∧ n ∉ ["fields"] ∧ n ∉ Document.dirDoc w d := by
  unfold Document._register_field at h
  split_ifs at h <;> simp_all

theorem _annotate_fail_world {w : World} {d : Nat} {n : String} {anns : List Ann} {e : Err}
    (h : (Document._annotate w d n anns).err = some e) :
    (Document._annotate w d n anns).world = w := by
  rcases hr : Document._register_field w d n with ⟨w1, oe⟩
  cases oe with
  | none => simp [Document._annotate, hr] at h
  | some e' =>
      have hw : w1 = w := register_fail_eq hr
      simp [Document._annotate, hr, hw]

theorem _annotate_ok_eq {w : World} {d : Nat} {n : String} {anns : List Ann}
    (h : (Document._annotate w d n anns).err = none) :
    Document._annotate w d n anns
      = ⟨setAttrW (Document.registerWorld w d n) d n anns, none,
         Document.BindStep.registered n
           :: List.map (fun a => Document.BindStep.linked (Ann.annotate a d) d) anns⟩ := by
  rcases hr : Document._register_field w d n with ⟨w1, oe⟩
  cases oe with
  | none =>
      have hw := (register_ok_eq hr).1
      simp [Document._annotate, hr, hw]
  | some e' => simp [Document._annotate, hr] at h

theorem _add_fail_eq {w : World} {d : Nat} {n : String} {anns : List Ann} {w1 : World} {e : Err}
    (h : Document._add w d n anns = (w1, some e)) : w1 = w := by
  unfold Document._add at h
  by_cases h1 : n ∈ w.defaultFields
  · rcases hmem : lookupKey (getDoc w d).indexers n with _ | idx
    · simp [h1, hmem] at h
      exact h.1.symm
    · rcases hfind : List.find? (fun a => ! Document.docBackrefEq a.doc d) anns with _ | a
      · simp [h1, hmem, hfind] at h
      · simp [h1, hmem, hfind] at h
        exact h.1.symm
  · simp [h1] at h
    exact h.1.symm

theorem _add_ok_eq {w : World} {d : Nat} {n : String} {anns : List Ann} {w1 : World}
    (h : Document._add w d n anns = (w1, none)) :
    w1 = setAttrW w d n anns
    ∧ n ∈ w.defaultFields
    ∧ (lookupKey (getDoc w d).indexers n).isSome = true
    ∧ ∀ a ∈ anns, Document.docBackrefEq a.doc d = true := by
  unfold Document._add at h
  by_cases h1 : n ∈ w.defaultFields
  · rcases hmem : lookupKey (getDoc w d).indexers n with _ | idx
    · simp [h1, hmem] at h
    · rcases hfind : List.find? (fun a => ! Document.docBackrefEq a.doc d) anns with _ | a
      · simp [h1, hmem, hfind] at h
        refine ⟨h.symm, h1, by simp [hmem], ?_⟩
        intro a ha
        by_contra hno
        have := List.find?_eq_none.mp hfind a ha
        simp_all
      · simp [h1, hmem, hfind] at h
  · simp [h1] at h

theorem annotate_cons_fail {w : World} {d : Nat} {n : String} {anns : List Ann}
    {rest : List (String × List Ann)} {e : Err}
    (h : (Document._annotate w d n anns).err = some e) :
    Document.annotate w d ((n, anns) :: rest) = Document._annotate w d n anns := by
  simp [Document.annotate, h]

theorem annotate_cons_ok {w : World} {d : Nat} {n : String} {anns : List Ann}
    {rest : List (String × List Ann)}
    (h : (Document._annotate w d n anns).err = none) :
    Document.annotate w d ((n, anns) :: rest)
      = ⟨(Document.annotate (Document._annotate w d n anns).world d rest).world,
         (Document.annotate (Document._annotate w d n anns).world d rest).err,
         (Document._annotate w d n anns).events
           ++ (Document.annotate (Document._annotate w d n anns).world d rest).events⟩ := by
  simp [Document.annotate, h]

theorem add_cons_fail {w : World} {d : Nat} {n : String} {anns : List Ann}
    {rest : List (String × List Ann)} {w1 : World} {e : Err}
    (h : Document._add w d n anns = (w1, some e)) :
    Document.add w d ((n, anns) :: rest) = ⟨w1, some e, []⟩ := by
  simp [Document.add, h]

theorem add_cons_ok {w : World} {d : Nat} {n : String} {anns : List Ann}
    {rest : List (String × List Ann)} {w1 : World}
    (h : Document._add w d n anns = (w1, none)) :
    Document.add w d ((n, anns) :: rest) = Document.add w1 d rest := by
  simp [Document.add, h]

theorem annotate_fail_decomp (d : Nat) (e : Err) :
    ∀ (pairs : List (String × List Ann)) (w : World),
      (Document.annotate w d pairs).err = some e →
      ∃ pre nm anns post,
        pairs = pre ++ (nm, anns) :: post
        ∧ (Document.annotate w d pre).err = none
        ∧ (Document.annotate w d pairs).world = (Document.annotate w d pre).world
        ∧ (Document._annotate (Document.annotate w d pre).world d nm anns).err = some e
        ∧ (Document._annotate (Document.annotate w d pre).world d nm anns).world
            = (Document.annotate w d pre).world := by
  intro pairs
  induction pairs with
  | nil => intro w h; simp [Document.annotate] at h
  | cons p rest ih =>
      obtain ⟨n, anns⟩ := p
      intro w h
      rcases herr : (Document._annotate w d n anns).err with _ | e'
      · rw [annotate_cons_ok herr] at h
        simp only at h
        obtain ⟨pre', nm, anns', post', hdec, hpreok, hworld, hfail, hfailw⟩ :=
          ih (Document._annotate w d n anns).world h
        refine ⟨(n, anns) :: pre', nm, anns', post', by simp [hdec], ?_, ?_, ?_, ?_⟩
        · simp only [annotate_cons_ok herr]
          simpa using hpreok
        · simp only [annotate_cons_ok herr]
          simpa using hworld
        · simp only [annotate_cons_ok herr]
          simpa using hfail
        · simp only [annotate_cons_ok herr]
          simpa using hfailw
      · rw [annotate_cons_fail herr] at h
        have he : e' = e := by rw [herr] at h; exact Option.some.inj h
        subst he
        refine ⟨[], n, anns, rest, rfl, rfl, ?_, ?_, ?_⟩
        · rw [annotate_cons_fail herr]
          exact _annotate_fail_world herr
        · exact herr
        · exact _annotate_fail_world herr

theorem add_fail_decomp (d : Nat) (e : Err) :
    ∀ (pairs : List (String × List Ann)) (w : World),
      (Document.add w d pairs).err = some e →
      ∃ pre nm anns post,
        pairs = pre ++ (nm, anns) :: post
        ∧ (Document.add w d pre).err = none
        ∧ (Document.add w d pairs).world = (Document.add w d pre).world
        ∧ (Document._add (Document.add w d pre).world d nm anns).2 = some e
        ∧ (Document._add (Document.add w d pre).world d nm anns).1
            = (Document.add w d pre).world := by
  intro pairs
  induction pairs with
  | nil => intro w h; simp [Document.add] at h
  | cons p rest ih =>
      obtain ⟨n, anns⟩ := p
      intro w h
      rcases hstep : Document._add w d n anns with ⟨w1, oe⟩
      cases oe with
      | none =>
          rw [add_cons_ok hstep] at h
          obtain ⟨pre', nm, anns', post', hdec, hpreok, hworld, hfail, hfailw⟩ := ih w1 h
          refine ⟨(n, anns) :: pre', nm, anns', post', by simp [hdec], ?_, ?_, ?_, ?_⟩
          · simp only [add_cons_ok hstep]
            exact hpreok
          · simp only [add_cons_ok hstep]
            exact hworld
          · simp only [add_cons_ok hstep]
            exact hfail
          · simp only [add_cons_ok hstep]
            exact hfailw
      | some e' =>
          rw [add_cons_fail hstep] at h
          simp only at h
          have he : e' = e := Option.some.inj h
          subst he
          have hw1 : w1 = w := _add_fail_eq hstep
          subst hw1
          refine ⟨[], n, anns, rest, rfl, rfl, ?_, ?_, ?_⟩
          · rw [add_cons_fail hstep]
            rfl
          · simpa [Document.add] using congrArg Prod.snd hstep
          · simpa [Document.add] using congrArg Prod.fst hstep


/-- C3: a violation detected during a multi-field `annotate` or `add` call
aborts the triggering call entirely, and the document is left in the state
prior to the failed field's mutation: the processed pairs split into a
committed prefix, the failing field — whose `_annotate` / `_add` call raised
while leaving the state untouched, so no field-set entry, indexer entry or
field attribute of it remains — and an unprocessed remainder, with the final
state equal to the state after the committed prefix alone. -/
theorem c3_violation_aborts_call (w : World) (d : Nat)
    (pairs : List (String × List Ann)) (e : Err) :
    ((Document.annotate w d pairs).err = some e →
      ∃ pre nm anns post,
        pairs = pre ++ (nm, anns) :: post
        ∧ (Document.annotate w d pre).err = none
        ∧ (Document.annotate w d pairs).world = (Document.annotate w d pre).world
        ∧ (Document._annotate (Document.annotate w d pre).world d nm anns).err = some e
        ∧ (Document._annotate (Document.annotate w d pre).world d nm anns).world
            = (Document.annotate w d pre).world)
    ∧ ((Document.add w d pairs).err = some e →
      ∃ pre nm anns post,
        pairs = pre ++ (nm, anns) :: post
        ∧ (Document.add w d pre).err = none
        ∧ (Document.add w d pairs).world = (Document.add w d pre).world
        ∧ (Document._add (Document.add w d pre).world d nm anns).2 = some e
        ∧ (Document._add (Document.add w d pre).world d nm anns).1
            = (Document.add w d pre).world) :=
  ⟨annotate_fail_decomp d e pairs w, add_fail_decomp d e pairs w⟩

/-- Witness for C3: a two-field `annotate` whose second field name is the
forbidden `"fields"` commits only the first field, and an `add` on an
unregistered field fails without any mutation. -/
theorem c3_violation_aborts_call_witness :
    (∃ pre nm anns post,
        ([("a", []), ("fields", [])] : List (String × List Ann)) = pre ++ (nm, anns) :: post
        ∧ (Document.annotate exW 0 pre).err = none
        ∧ (Document.annotate exW 0 [("a", []), ("fields", [])]).world
            = (Document.annotate exW 0 pre).world
        ∧ (Document._annotate (Document.annotate exW 0 pre).world 0 nm anns).err
            = some Err.assertionFieldNamedFields
        ∧ (Document._annotate (Document.annotate exW 0 pre).world 0 nm anns).world
            = (Document.annotate exW 0 pre).world)
    ∧ (∃ pre nm anns post,
        ([("zz", [])] : List (String × List Ann)) = pre ++ (nm, anns) :: post
        ∧ (Document.add exW 0 pre).err = none
        ∧ (Document.add exW 0 [("zz", [])]).world = (Document.add exW 0 pre).world
        ∧ (Document._add (Document.add exW 0 pre).world 0 nm anns).2
            = some Err.assertionAddFieldMissing
        ∧ (Document._add (Document.add exW 0 pre).world 0 nm anns).1
            = (Document.add exW 0 pre).world) :=
  ⟨(c3_violation_aborts_call exW 0 [("a", []), ("fields", [])] Err.assertionFieldNamedFields).1 rfl,
   (c3_violation_aborts_call exW 0 [("zz", [])] Err.assertionAddFieldMissing).2 rfl⟩

theorem getDoc_setAttrW_self (w : World) (d : Nat) (n : String) (anns : List Ann)
    (hd : d < w.docs.length) :
    getDoc (setAttrW w d n anns) d
      = { getDoc w d with attrs := setKey (getDoc w d).attrs n anns } := by
  simp [setAttrW, getDoc_updateDoc_self w d _ hd]

theorem docs_length_setAttrW (w : World) (d : Nat) (n : String) (anns : List Ann) :
    (setAttrW w d n anns).docs.length = w.docs.length := by
  simp [setAttrW, docs_length_updateDoc]

theorem docs_length_registerWorld (w : World) (d : Nat) (n : String) :
    (Document.registerWorld w d n).docs.length = w.docs.length := by
  simp [Document.registerWorld, docs_length_updateDoc]

theorem getDoc_registerWorld_self (w : World) (d : Nat) (n : String)
    (hd : d < w.docs.length) :
    getDoc (Document.registerWorld w d n) d
      = { getDoc w d with
            indexers := setKey (getDoc w d).indexers n ⟨(getDoc w d).symbols.page_count⟩ } := by
  have hd1 : d < ({ w with defaultFields := w.defaultFields ++ [n] } : World).docs.length := hd
  rw [Document.registerWorld, getDoc_updateDoc_self _ d _ hd1]
  rfl

theorem _annotate_docs_length (w : World) (d : Nat) (n : String) (anns : List Ann) :
    ((Document._annotate w d n anns).world).docs.length = w.docs.length := by
  rcases herr : (Document._annotate w d n anns).err with _ | e
  · rw [_annotate_ok_eq herr]
    simp [docs_length_setAttrW, docs_length_registerWorld]
  · rw [_annotate_fail_world herr]

theorem _annotate_ok_attr_self (w : World) (d : Nat) (n : String) (anns : List Ann)
    (hd : d < w.docs.length)
    (h : (Document._annotate w d n anns).err = none) :
    lookupKey (getDoc (Document._annotate w d n anns).world d).attrs n = some anns := by
  rw [_annotate_ok_eq h]
  have hd1 : d < (Document.registerWorld w d n).docs.length := by
    rwa [docs_length_registerWorld]
  simp [getDoc_setAttrW_self _ d n anns hd1, lookupKey_setKey_self]

theorem _annotate_preserves_attr (w : World) (d : Nat) (n : String) (anns : List Ann)
    {m : String} (hm : m ≠ n) (hd : d < w.docs.length) :
    lookupKey (getDoc (Document._annotate w d n anns).world d).attrs m
      = lookupKey (getDoc w d).attrs m := by
  rcases herr : (Document._annotate w d n anns).err with _ | e
  · rw [_annotate_ok_eq herr]
    have hd1 : d < (Document.registerWorld w d n).docs.length := by
      rwa [docs_length_registerWorld]
    simp only [getDoc_setAttrW_self _ d n anns hd1]
    rw [lookupKey_setKey_ne _ _ hm, getDoc_registerWorld_self w d n hd]
  · rw [_annotate_fail_world herr]

theorem annotate_docs_length (d : Nat) :
    ∀ (pairs : List (String × List Ann)) (w : World),
      ((Document.annotate w d pairs).world).docs.length = w.docs.length := by
  intro pairs
  induction pairs with
  | nil => intro w; rfl
  | cons p rest ih =>
      obtain ⟨n, anns⟩ := p
      intro w
      rcases herr : (Document._annotate w d n anns).err with _ | e
      · rw [annotate_cons_ok herr]
        simp only
        rw [ih, _annotate_docs_length]
      · rw [annotate_cons_fail herr, _annotate_fail_world herr]

theorem annotate_preserves_attr (d : Nat) {m : String} :
    ∀ (pairs : List (String × List Ann)) (w : World),
      m ∉ List.map Prod.fst pairs → d < w.docs.length →
      lookupKey (getDoc (Document.annotate w d pairs).world d).attrs m
        = lookupKey (getDoc w d).attrs m := by
  intro pairs
  induction pairs with
  | nil => intro w _ _; rfl
  | cons p rest ih =>
      obtain ⟨n, anns⟩ := p
      intro w hnm hd
      simp only [List.map_cons, List.mem_cons, not_or] at hnm
      rcases herr : (Document._annotate w d n anns).err with _ | e
      · rw [annotate_cons_ok herr]
        simp only
        rw [ih _ hnm.2 (by rw [_annotate_docs_length]; exact hd),
          _annotate_preserves_attr w d n anns hnm.1 hd]
      · rw [annotate_cons_fail herr, _annotate_fail_world herr]

/-- C4: a successful multi-field `annotate` stores, for every supplied field
name, exactly the input annotation sequence (order preserved) as the
document's attribute of that name; and within each field the processing order
is `register_field` first, then one binding call per annotation in sequence
order, as recorded by the call trace. -/
theorem c4_annotate_stores_input (w : World) (d : Nat)
    (pairs : List (String × List Ann))
    (hd : d < w.docs.length)
    (hnodup : (List.map Prod.fst pairs).Nodup)
    (hok : (Document.annotate w d pairs).err = none) :
    (∀ p ∈ pairs,
        lookupKey (getDoc (Document.annotate w d pairs).world d).attrs p.1 = some p.2)
    ∧ (Document.annotate w d pairs).events
        = List.flatten (List.map (fun p : String × List Ann =>
            Document.BindStep.registered p.1
              :: List.map (fun a => Document.BindStep.linked (Ann.annotate a d) d) p.2) pairs) := by
  induction pairs generalizing w with
  | nil => exact ⟨by simp, by simp [Document.annotate]⟩
  | cons p rest ih =>
      obtain ⟨n, anns⟩ := p
      rcases herr : (Document._annotate w d n anns).err with _ | e
      · rw [annotate_cons_ok herr] at hok ⊢
        simp only at hok ⊢
        simp only [List.map_cons, List.nodup_cons] at hnodup
        have hd1 : d < ((Document._annotate w d n anns).world).docs.length := by
          rw [_annotate_docs_length]; exact hd
        obtain ⟨ihattr, ihev⟩ := ih _ hd1 hnodup.2 hok
        constructor
        · intro q hq
          rcases List.mem_cons.mp hq with hq | hq
          · subst hq
            rw [annotate_preserves_attr d rest _ hnodup.1 hd1]
            exact _annotate_ok_attr_self w d n anns hd herr
          · exact ihattr q hq
        · rw [ihev, _annotate_ok_eq herr]
          simp
      · rw [annotate_cons_fail herr, herr] at hok
        exact absurd hok (by simp)

/-- Witness for C4: a concrete two-field `annotate` on the example document
stores both input sequences and records the register-then-bind trace. -/
theorem c4_annotate_stores_input_witness :
    (∀ p ∈ ([("tokens", [(⟨none, 7⟩ : Ann)]), ("rows", [])] : List (String × List Ann)),
        lookupKey
          (getDoc (Document.annotate exW 0 [("tokens", [⟨none, 7⟩]), ("rows", [])]).world 0).attrs
          p.1 = some p.2)
    ∧ (Document.annotate exW 0 [("tokens", [⟨none, 7⟩]), ("rows", [])]).events
        = List.flatten (List.map (fun p : String × List Ann =>
            Document.BindStep.registered p.1
              :: List.map (fun a => Document.BindStep.linked (Ann.annotate a 0) 0) p.2)
            [("tokens", [⟨none, 7⟩]), ("rows", [])]) :=
  c4_annotate_stores_input exW 0 [("tokens", [⟨none, 7⟩]), ("rows", [])]
    (by decide) (by decide) rfl

/-- Counterexample to C5 as stated: in `exW2`, document 0 has the field
`"tokens"` registered (field set and indexer entry) and document 1 exists;
`add` on document 0 of an annotation whose back-reference points to document 1
— a different Document instance — succeeds instead of raising the consistency
error, because the dataclass-generated `Document.__eq__` compares the empty
tuples of dataclass fields and therefore holds between any two Documents. -/
theorem c5_counterexample_foreign_doc_passes :
    (Document.add exW2 0 [("tokens", [(⟨some 1, 3⟩ : Ann)])]).err = none
    ∧ (⟨some 1, 3⟩ : Ann).doc ≠ some 0
    ∧ 1 < exW2.docs.length ∧ (1 : Nat) ≠ 0 :=
  ⟨rfl, by decide, by decide, by decide⟩

/-- C5 (amended): `_add` fails when the field name is missing from the shared
field set or from this document's indexer mapping, and fails (consistency
check) when some annotation's document back-reference is `None`; an annotation
referencing *any* Document instance — not necessarily this exact one — passes
the check, since the field-less dataclass equality holds between any two
Documents.  On success the field attribute is set to the supplied sequence
while the indexer mapping and the field set are untouched. -/
theorem c5_add_contract (w : World) (d : Nat) (n : String) (anns : List Ann)
    (hd : d < w.docs.length) :
    (n ∉ w.defaultFields →
        Document._add w d n anns = (w, some Err.assertionAddFieldMissing))
    ∧ (n ∈ w.defaultFields → lookupKey (getDoc w d).indexers n = none →
        Document._add w d n anns = (w, some Err.assertionAddIndexerMissing))
    ∧ (n ∈ w.defaultFields → (lookupKey (getDoc w d).indexers n).isSome = true →
        (∃ a ∈ anns, a.doc = none) →
        Document._add w d n anns = (w, some Err.assertionAddDocMismatch))
    ∧ (n ∈ w.defaultFields → (lookupKey (getDoc w d).indexers n).isSome = true →
        (∀ a ∈ anns, a.doc ≠ none) →
        Document._add w d n anns = (setAttrW w d n anns, none)
          ∧ (getDoc (setAttrW w d n anns) d).indexers = (getDoc w d).indexers
          ∧ (setAttrW w d n anns).defaultFields = w.defaultFields) := by
  refine ⟨?_, ?_, ?_, ?_⟩
  · intro h1
    simp [Document._add, h1]
  · intro h1 h2
    simp [Document._add, h1, h2]
  · intro h1 h2 h3
    obtain ⟨a, ha, hdoc⟩ := h3
    rcases hfind : List.find? (fun a => ! Document.docBackrefEq a.doc d) anns with _ | a'
    · exfalso
      have := List.find?_eq_none.mp hfind a ha
      simp [Document.docBackrefEq, hdoc] at this
    · simp only [Option.isSome_iff_ne_none] at h2
      simp [Document._add, h1, h2, hfind]
  · intro h1 h2 h3
    rcases hfind : List.find? (fun a => ! Document.docBackrefEq a.doc d) anns with _ | a'
    · simp only [Option.isSome_iff_ne_none] at h2
      refine ⟨by simp [Document._add, h1, h2, hfind], ?_, ?_⟩
      · rw [getDoc_setAttrW_self w d n anns hd]
      · simp [setAttrW, defaultFields_updateDoc]
    · exfalso
      have hmem := List.find?_some hfind
      have hin := List.mem_of_find?_eq_some hfind
      have := h3 a' hin
      rcases hdoc : a'.doc with _ | j
      · exact this hdoc
      · simp [Document.docBackrefEq, hdoc] at hmem

/-- Witness for C5 (amended): the success branch on the concrete state `exW2`
(field registered on document 0, both annotations' back-references non-None)
sets the attribute and leaves the indexers and field set unchanged. -/
theorem c5_add_contract_witness :
    Document._add exW2 0 "tokens" [(⟨some 1, 3⟩ : Ann)]
        = (setAttrW exW2 0 "tokens" [⟨some 1, 3⟩], none)
      ∧ (getDoc (setAttrW exW2 0 "tokens" [(⟨some 1, 3⟩ : Ann)]) 0).indexers
          = (getDoc exW2 0).indexers
      ∧ (setAttrW exW2 0 "tokens" [(⟨some 1, 3⟩ : Ann)]).defaultFields
          = exW2.defaultFields :=
  (c5_add_contract exW2 0 "tokens" [⟨some 1, 3⟩] (by decide)).2.2.2
    (by decide) (by decide) (by decide)

theorem buildFields_no_key (w : World) (d : Nat) (m : String) :
    ∀ (fs : List String) (acc j : List (String × List Nat)),
      m ∉ fs → m ∉ List.map Prod.fst acc →
      Document.buildFields w d fs acc = .ok j → m ∉ List.map Prod.fst j := by
  intro fs
  induction fs with
  | nil =>
      intro acc j _ hacc h
      simp only [Document.buildFields] at h
      cases h
      exact hacc
  | cons f rest ih =>
      intro acc j hfs hacc h
      simp only [List.mem_cons, not_or] at hfs
      rcases hser : Document.serialize_field w d f with e | v
      · rw [Document.buildFields, hser] at h
        cases h
      · rw [Document.buildFields, hser] at h
        exact ih (setKey acc f v) j hfs.2 (not_mem_map_fst_setKey acc v hfs.1 hacc) h

theorem to_json_false_no_images (w : World) (d : Nat)
    (fields : Option (List String)) (j : List (String × List Nat))
    (hok : Document.to_json w d fields false = .ok j) :
    Images ∉ List.map Prod.fst j := by
  unfold Document.to_json at hok
  simp only [Bool.false_eq_true, if_false] at hok
  refine buildFields_no_key w d Images _ [] j ?_ (by simp) hok
  intro hmem
  have := List.of_mem_filter hmem
  simp at this

/-- C7: with `with_images=False`, `to_json` never includes the images field in
its output mapping, even when `"images"` is explicitly listed in the `fields`
argument; and when `fields` is omitted it defaults to all registered fields —
the shared `self.fields` list. -/
theorem c7_to_json_excludes_images (w : World) (d : Nat)
    (fields : Option (List String)) (j : List (String × List Nat))
    (hok : Document.to_json w d fields false = .ok j) :
    Images ∉ List.map Prod.fst j
    ∧ ∀ wi : Bool,
        Document.to_json w d none wi = Document.to_json w d (some w.defaultFields) wi :=
  ⟨to_json_false_no_images w d fields j hok, fun _ => rfl⟩

/-- Witness for C7: requesting exactly `fields=["images"]` with
`with_images=False` on the example document yields the empty mapping, which
does not contain the images field. -/
theorem c7_to_json_excludes_images_witness :
    Images ∉ List.map Prod.fst ([] : List (String × List Nat))
    ∧ ∀ wi : Bool,
        Document.to_json exW 0 none wi = Document.to_json exW 0 (some exW.defaultFields) wi :=
  c7_to_json_excludes_images exW 0 (some [Images]) [] rfl

/-- C8: directory-layout `save` (`with_images=True`, `images_in_json=False`)
requires the path to be a directory, failing with the PreconditionError
analogue — and writing nothing — otherwise; on a directory it writes
`document.json` first, with a JSON body that excludes the images field, then
one image file per page named by its zero-based page index (`0.png`,
`1.png`, ...) in page order. -/
theorem c8_save_directory_layout (w : World) (d : Nat) (fields : Option (List String))
    (imgs : List Image) (j : List (String × List Nat))
    (himgs : (getDoc w d).images = some imgs)
    (hjson : Document.to_json w d fields false = .ok j) :
    Document.save w d false fields true false = ([], some Err.assertionSaveNeedsDir)
    ∧ Document.save w d true fields true false
        = ((Document.SaveTarget.inDir "document.json", Document.SaveFile.json j)
            :: List.map (fun p => (Document.SaveTarget.inDir (toString p.1 ++ ".png"),
                 Document.SaveFile.image p.2)) imgs.enum,
           none)
    ∧ Images ∉ List.map Prod.fst j := by
  refine ⟨rfl, ?_, to_json_false_no_images w d fields j hjson⟩
  simp [Document.save, hjson, himgs]

/-- Witness for C8: saving the two-page example document into a directory
writes `document.json` (images excluded from the body) and then `0.png` and
`1.png` in page order, while a non-directory path fails the isdir assert. -/
theorem c8_save_directory_layout_witness :
    Document.save exW 0 false none true false = ([], some Err.assertionSaveNeedsDir)
    ∧ Document.save exW 0 true none true false
        = ((Document.SaveTarget.inDir "document.json",
              Document.SaveFile.json [(Symbols, [5, 6])])
            :: List.map (fun p => (Document.SaveTarget.inDir (toString p.1 ++ ".png"),
                 Document.SaveFile.image p.2)) exImgs.enum,
           none)
    ∧ Images ∉ List.map Prod.fst [(Symbols, [5, 6])] :=
  c8_save_directory_layout exW 0 none exImgs [(Symbols, [5, 6])] rfl rfl

theorem setAttrW_defaultFields (w : World) (d : Nat) (n : String) (anns : List Ann) :
    (setAttrW w d n anns).defaultFields = w.defaultFields := by
  simp [setAttrW, defaultFields_updateDoc]

theorem registerWorld_defaultFields (w : World) (d : Nat) (n : String) :
    (Document.registerWorld w d n).defaultFields = w.defaultFields ++ [n] := by
  simp [Document.registerWorld, defaultFields_updateDoc]

/-- C10: field registration mutates state shared across Document instances.
After one document's `annotate` successfully registers a fresh name `n`, a
Document constructed afterwards already sees `n` in its field set — every
instance's `_fields` aliases the single class-level `DEFAULT_FIELDS` list —
while having no indexer entry for it, and the new document's own `annotate`
of `n` fails with the duplicate-name assertion, mutating nothing. -/
theorem c10_shared_default_fields (w1 w2 : World) (d1 d2 : Nat)
    (s2 : DocumentSymbols) (i2 : Option (List Image)) (n : String)
    (anns1 anns2 : List Ann)
    (hok : (Document.annotate w1 d1 [(n, anns1)]).err = none)
    (hnew2 : World.newDoc (Document.annotate w1 d1 [(n, anns1)]).world s2 i2 = (w2, d2)) :
    n ∈ w2.defaultFields
    ∧ lookupKey (getDoc w2 d2).indexers n = none
    ∧ (Document.annotate w2 d2 [(n, anns2)]).err = some Err.assertionFieldExists
    ∧ (Document.annotate w2 d2 [(n, anns2)]).world = w2 := by
  have herr : (Document._annotate w1 d1 n anns1).err = none := by
    rcases herr : (Document._annotate w1 d1 n anns1).err with _ | e
    · rfl
    · rw [annotate_cons_fail herr, herr] at hok
      exact absurd hok (by simp)
  have hworld : (Document.annotate w1 d1 [(n, anns1)]).world
      = (Document._annotate w1 d1 n anns1).world := by
    rw [annotate_cons_ok herr]
    rfl
  have hnoUnderscore : ¬ List.isPrefixOf "_".toList n.toList := by
    rcases hr : Document._register_field w1 d1 n with ⟨wr, oe⟩
    cases oe with
    | none => exact (register_ok_eq hr).2.1
    | some e => simp [Document._annotate, hr] at herr
  have hfieldsA : ((Document.annotate w1 d1 [(n, anns1)]).world).defaultFields
      = w1.defaultFields ++ [n] := by
    rw [hworld, _annotate_ok_eq herr]
    simp only
    rw [setAttrW_defaultFields, registerWorld_defaultFields]
  have hw2 : w2 = { (Document.annotate w1 d1 [(n, anns1)]).world with
      docs := ((Document.annotate w1 d1 [(n, anns1)]).world).docs ++ [⟨s2, i2, [], []⟩] } := by
    have := congrArg Prod.fst hnew2
    simpa [World.newDoc] using this.symm
  have hd2 : d2 = ((Document.annotate w1 d1 [(n, anns1)]).world).docs.length := by
    have := congrArg Prod.snd hnew2
    simpa [World.newDoc] using this.symm
  have hmem : n ∈ w2.defaultFields := by
    rw [hw2]
    show n ∈ ((Document.annotate w1 d1 [(n, anns1)]).world).defaultFields
    rw [hfieldsA]
    simp
  have hfresh : getDoc w2 d2 = ⟨s2, i2, [], []⟩ := by
    rw [hw2, hd2]
    simp [getDoc]
  have hreg2 : Document._register_field w2 d2 n = (w2, some Err.assertionFieldExists) := by
    unfold Document._register_field
    rw [if_neg hnoUnderscore, if_pos hmem]
  have hann2 : Document._annotate w2 d2 n anns2
      = ⟨w2, some Err.assertionFieldExists, []⟩ := by
    simp [Document._annotate, hreg2]
  refine ⟨hmem, by rw [hfresh]; rfl, ?_, ?_⟩
  · rw [annotate_cons_fail (by rw [hann2]), hann2]
  · rw [annotate_cons_fail (by rw [hann2]), hann2]

/-- Witness for C10: after document 0 of `exW` registers `"tokens"`,
document 1 — constructed afterwards in `exW2` — sees `"tokens"` in its field
set, lacks an indexer entry for it, and fails to annotate it itself. -/
theorem c10_shared_default_fields_witness :
    "tokens" ∈ exW2.defaultFields
    ∧ lookupKey (getDoc exW2 1).indexers "tokens" = none
    ∧ (Document.annotate exW2 1 [("tokens", [])]).err = some Err.assertionFieldExists
    ∧ (Document.annotate exW2 1 [("tokens", [])]).world = exW2 :=
  c10_shared_default_fields exW exW2 0 1 exSyms none "tokens" [⟨none, 7⟩] [] rfl rfl

theorem countP_set_agree {α : Type} (p : α → Bool) :
    ∀ (l : List α) (d : Nat) (x : α) (hd : d < l.length),
      p x = p (l.get ⟨d, hd⟩) →
      List.countP p (l.set d x) = List.countP p l := by
  intro l
  induction l with
  | nil => intro d x hd _; simp at hd
  | cons y ys ih =>
      intro d x hd hp
      cases d with
      | zero =>
          simp only [List.set, List.countP_cons]
          simp only [List.get] at hp
          rw [hp]
      | succ d' =>
          simp only [List.set, List.countP_cons]
          rw [ih d' x (by simpa using hd) (by simpa using hp)]

theorem countP_set_single {α : Type} (p : α → Bool) :
    ∀ (l : List α) (d : Nat) (x : α), d < l.length →
      (∀ y ∈ l, p y = false) → p x = true →
      List.countP p (l.set d x) = 1 := by
  intro l
  induction l with
  | nil => intro d x hd _ _; simp at hd
  | cons y ys ih =>
      intro d x hd hall hx
      cases d with
      | zero =>
          simp only [List.set, List.countP_cons]
          have hz : List.countP p ys = 0 :=
            List.countP_eq_zero.mpr (fun a ha => by
              simp [hall a (List.mem_cons_of_mem _ ha)])
          simp [hz, hx]
      | succ d' =>
          simp only [List.set, List.countP_cons]
          rw [ih d' x (by simpa using hd)
            (fun a ha => hall a (List.mem_cons_of_mem _ ha)) hx]
          simp [hall y (List.mem_cons_self y ys)]

theorem getDoc_eq_get (w : World) (d : Nat) (hd : d < w.docs.length) :
    getDoc w d = w.docs.get ⟨d, hd⟩ := by
  simp [getDoc, List.getElem?_eq_getElem hd]

theorem registerWorld_docs (w : World) (d : Nat) (n : String) :
    (Document.registerWorld w d n).docs
      = w.docs.set d { getDoc w d with
          indexers := setKey (getDoc w d).indexers n ⟨(getDoc w d).symbols.page_count⟩ } :=
  rfl

theorem registryInv_indexer_preserving (w : World) (d : Nat) (f : DocObj → DocObj)
    (hf : ∀ doc, (f doc).indexers = doc.indexers)
    (h : RegistryInv w) : RegistryInv (updateDoc w d f) := by
  obtain ⟨h1, h2, h3⟩ := h
  by_cases hd : d < w.docs.length
  · refine ⟨?_, ?_, ?_⟩
    · intro name hres
      rw [defaultFields_updateDoc]
      exact h1 name hres
    · intro name hname hnres
      rw [defaultFields_updateDoc] at hname
      show List.countP (hasIndexerEntry name) (updateDoc w d f).docs = 1
      have hagree : hasIndexerEntry name (f (getDoc w d))
          = hasIndexerEntry name (w.docs.get ⟨d, hd⟩) := by
        rw [← getDoc_eq_get w d hd]
        simp [hasIndexerEntry, hf]
      rw [show (updateDoc w d f).docs = w.docs.set d (f (getDoc w d)) from rfl,
        countP_set_agree _ w.docs d _ hd hagree]
      exact h2 name hname hnres
    · intro doc hdoc name hentry
      rw [defaultFields_updateDoc]
      rcases List.mem_or_eq_of_mem_set hdoc with hmem | heq
      · exact h3 doc hmem name hentry
      · subst heq
        refine h3 (getDoc w d) ?_ name ?_
        · rw [getDoc_eq_get w d hd]
          exact List.get_mem w.docs d hd
        · simpa [hasIndexerEntry, hf] using hentry
  · have hset : (updateDoc w d f).docs = w.docs :=
      List.set_eq_of_length_le (Nat.le_of_not_lt hd)
    refine ⟨?_, ?_, ?_⟩
    · intro name hres
      rw [defaultFields_updateDoc]
      exact h1 name hres
    · intro name hname hnres
      rw [defaultFields_updateDoc] at hname
      show List.countP (hasIndexerEntry name) (updateDoc w d f).docs = 1
      rw [hset]
      exact h2 name hname hnres
    · intro doc hdoc name hentry
      rw [defaultFields_updateDoc]
      rw [hset] at hdoc
      exact h3 doc hdoc name hentry

theorem registryInv_setAttrW (w : World) (d : Nat) (n : String) (anns : List Ann)
    (h : RegistryInv w) : RegistryInv (setAttrW w d n anns) :=
  registryInv_indexer_preserving w d _ (fun _ => rfl) h

theorem registryInv_newDoc (w : World) (s : DocumentSymbols) (i : Option (List Image))
    (h : RegistryInv w) : RegistryInv (World.newDoc w s i).1 := by
  obtain ⟨h1, h2, h3⟩ := h
  refine ⟨h1, ?_, ?_⟩
  · intro name hname hnres
    show List.countP (hasIndexerEntry name) (w.docs ++ [⟨s, i, [], []⟩]) = 1
    rw [List.countP_append]
    have : List.countP (hasIndexerEntry name) [(⟨s, i, [], []⟩ : DocObj)] = 0 := by
      simp [hasIndexerEntry, lookupKey]
    rw [this]
    exact h2 name hname hnres
  · intro doc hdoc name hentry
    rcases List.mem_append.mp hdoc with hmem | hmem
    · exact h3 doc hmem name hentry
    · exfalso
      have : doc = ⟨s, i, [], []⟩ := by simpa using hmem
      subst this
      simp [hasIndexerEntry, lookupKey] at hentry

theorem registryInv_registerWorld (w : World) (d : Nat) (n : String)
    (hd : d < w.docs.length) (hnew : n ∉ w.defaultFields)
    (h : RegistryInv w) : RegistryInv (Document.registerWorld w d n) := by
  obtain ⟨h1, h2, h3⟩ := h
  have hnres : n ∉ reservedNames := fun hres => hnew (h1 n hres)
  refine ⟨?_, ?_, ?_⟩
  · intro name hres
    rw [registerWorld_defaultFields]
    exact List.mem_append_left _ (h1 name hres)
  · intro name hname hnres'
    rw [registerWorld_defaultFields] at hname
    show List.countP (hasIndexerEntry name) (Document.registerWorld w d n).docs = 1
    rw [registerWorld_docs]
    rcases List.mem_append.mp hname with hold | hn
    · have hne : name ≠ n := fun he => hnew (he ▸ hold)
      rw [countP_set_agree _ w.docs d _ hd
        (by rw [← getDoc_eq_get w d hd]
            simp [hasIndexerEntry, lookupKey_setKey_ne _ _ hne])]
      exact h2 name hold hnres'
    · have he : name = n := by simpa using hn
      subst he
      have hall : ∀ y ∈ w.docs, hasIndexerEntry name y = false := by
        intro y hy
        by_contra hcon
        have hyt : hasIndexerEntry name y = true := by
          cases hb : hasIndexerEntry name y
          · exact absurd hb hcon
          · rfl
        exact hnew (h3 y hy name hyt).1
      refine countP_set_single _ w.docs d _ hd hall ?_
      simp [hasIndexerEntry, lookupKey_setKey_self]
  · intro doc hdoc name hentry
    rw [registerWorld_defaultFields]
    rw [registerWorld_docs] at hdoc
    rcases List.mem_or_eq_of_mem_set hdoc with hmem | heq
    · obtain ⟨hf, hr⟩ := h3 doc hmem name hentry
      exact ⟨List.mem_append_left _ hf, hr⟩
    · subst heq
      simp only [hasIndexerEntry] at hentry
      rcases lookupKey_isSome_setKey _ _ _ _ hentry with he | hold
      · subst he
        exact ⟨List.mem_append_right _ (by simp), hnres⟩
      · have hmemd : getDoc w d ∈ w.docs := by
          rw [getDoc_eq_get w d hd]
          exact List.get_mem w.docs d hd
        obtain ⟨hf, hr⟩ := h3 (getDoc w d) hmemd name hold
        exact ⟨List.mem_append_left _ hf, hr⟩

theorem registryInv_annotate1 (w : World) (d : Nat) (n : String) (anns : List Ann)
    (hd : d < w.docs.length) (h : RegistryInv w) :
    RegistryInv ((Document._annotate w d n anns).world) := by
  rcases hr : Document._register_field w d n with ⟨wr, oe⟩
  cases oe with
  | some e =>
      have hw : (Document._annotate w d n anns).world = w := by
        simp [Document._annotate, hr, register_fail_eq hr]
      rwa [hw]
  | none =>
      obtain ⟨hwr, _, hnew, _, _⟩ := register_ok_eq hr
      have hw : (Document._annotate w d n anns).world = setAttrW wr d n anns := by
        simp [Document._annotate, hr]
      rw [hw, hwr]
      exact registryInv_setAttrW _ d n anns (registryInv_registerWorld w d n hd hnew h)

theorem registryInv_annotate (d : Nat) :
    ∀ (pairs : List (String × List Ann)) (w : World),
      d < w.docs.length → RegistryInv w →
      RegistryInv ((Document.annotate w d pairs).world) := by
  intro pairs
  induction pairs with
  | nil => intro w _ h; exact h
  | cons p rest ih =>
      obtain ⟨n, anns⟩ := p
      intro w hd h
      rcases herr : (Document._annotate w d n anns).err with _ | e
      · rw [annotate_cons_ok herr]
        exact ih _ (by rw [_annotate_docs_length]; exact hd)
          (registryInv_annotate1 w d n anns hd h)
      · rw [annotate_cons_fail herr, _annotate_fail_world herr]
        exact h

theorem registryInv_add1 (w : World) (d : Nat) (n : String) (anns : List Ann)
    (h : RegistryInv w) :
    RegistryInv (Document._add w d n anns).1 := by
  rcases hstep : Document._add w d n anns with ⟨w1, oe⟩
  cases oe with
  | some e => simpa [_add_fail_eq hstep] using h
  | none =>
      have := (_add_ok_eq hstep).1
      simpa [this] using registryInv_setAttrW w d n anns h

theorem _add_docs_length (w : World) (d : Nat) (n : String) (anns : List Ann) :
    ((Document._add w d n anns).1).docs.length = w.docs.length := by
  rcases hstep : Document._add w d n anns with ⟨w1, oe⟩
  cases oe with
  | some e => simp [_add_fail_eq hstep]
  | none => simp [(_add_ok_eq hstep).1, docs_length_setAttrW]

theorem registryInv_add (d : Nat) :
    ∀ (pairs : List (String × List Ann)) (w : World),
      d < w.docs.length → RegistryInv w →
      RegistryInv ((Document.add w d pairs).world) := by
  intro pairs
  induction pairs with
  | nil => intro w _ h; exact h
  | cons p rest ih =>
      obtain ⟨n, anns⟩ := p
      intro w hd h
      rcases hstep : Document._add w d n anns with ⟨w1, oe⟩
      cases oe with
      | some e =>
          rw [add_cons_fail hstep]
          have hw1 := _add_fail_eq hstep
          subst hw1
          exact h
      | none =>
          rw [add_cons_ok hstep]
          have hw1 := (_add_ok_eq hstep).1
          refine ih w1 ?_ ?_
          · rw [hw1, docs_length_setAttrW]
            exact hd
          · rw [hw1]
            exact registryInv_setAttrW w d n anns h

/-- C2 (amended): the per-document form of the invariant fails (see the
counterexample), but the cross-document form holds in every reachable state:
the two reserved names are always in the shared field set; every other name
in the shared field set has an indexer entry in exactly one constructed
Document — the one whose `annotate` registered it — and indexer entries exist
only for registered non-reserved names.  A Document other than the registering
one (e.g. one constructed later) sees the name in its aliased field set with
no entry in its own indexer mapping. -/
theorem c2_registry_invariant (w : World) (h : Reachable w) : RegistryInv w := by
  induction h with
  | init =>
      refine ⟨fun name hres => hres, ?_, ?_⟩
      · intro name hname hnres
        exact absurd hname hnres
      · intro doc hdoc
        simp [World.init] at hdoc
  | newDoc s i _ ih => exact registryInv_newDoc _ s i ih
  | annotateCall pairs _ hd ih => exact registryInv_annotate _ pairs _ hd ih
  | addCall pairs _ hd ih => exact registryInv_add _ pairs _ hd ih

/-- Witness for C2 (amended): in the reachable state `exW2`, the registered
non-reserved name `"tokens"` has an indexer entry in exactly one of the two
constructed documents. -/
theorem c2_registry_invariant_witness :
    indexerDocCount exW2 "tokens" = 1 :=
  (c2_registry_invariant exW2
      (Reachable.newDoc exSyms none
        (Reachable.annotateCall [("tokens", [⟨none, 7⟩])]
          (Reachable.newDoc exSyms (some exImgs) Reachable.init)
          (by decide)))).2.1
    "tokens" (by decide) (by decide)

/-- Counterexample to C2 as stated: `exW2` is a reachable state in which
`"tokens"` is a non-reserved name of the (shared) field set, document 1 is a
constructed Document, and document 1's indexer mapping has no entry for
`"tokens"` — the per-document invariant fails for every Document other than
the registering one. -/
theorem c2_counterexample_missing_indexer :
    Reachable exW2
    ∧ "tokens" ∈ exW2.defaultFields
    ∧ "tokens" ∉ reservedNames
    ∧ 1 < exW2.docs.length
    ∧ lookupKey (getDoc exW2 1).indexers "tokens" = none := by
  refine ⟨?_, by decide, by decide, by decide, rfl⟩
  exact Reachable.newDoc exSyms none
    (Reachable.annotateCall [("tokens", [⟨none, 7⟩])]
      (Reachable.newDoc exSyms (some exImgs) Reachable.init)
      (by decide))

/-- C1: the claimed `from_json` / `to_json` round trip never succeeds on the
code.  For the example document, `to_json` produces the serialized mapping,
but `Document.from_json` raises `AttributeError` on that very output, because
its first step calls `.pop` on the `dict_keys` view returned by
`doc_dict.keys()`; no Document is ever constructed from a serialized form. -/
theorem c1_from_json_roundtrip_raises :
    Document.to_json exW 0 none false = .ok [(Symbols, [5, 6])]
    ∧ Document.from_json exW [(Symbols, [5, 6])] = .error Err.attributeError :=
  ⟨rfl, rfl⟩

/-- C6: `find` never behaves as the claim states.  Because it is decorated
`@classmethod` and reads `self._indexers` — an attribute that exists only on
instances, never on the class object — every call raises `AttributeError`,
for unregistered and registered field names alike, instead of raising the
unknown-field error or delegating the query to the field's indexer. -/
theorem c6_find_always_attribute_error (query : Nat) (field_name : String) :
    Document.find query field_name = .error Err.attributeError := rfl

/-- C9: on a directory, `load` does glob the page images and sort them
numerically (page 10 after page 9), and a missing `document.json` does raise
the NotFoundError analogue; but whenever the JSON file is present — directory
or plain file — `load` reaches `from_json`, which raises `AttributeError` on
every input, so no Document (with or without images) is ever produced. -/
theorem c9_load_behavior :
    Document.load World.init fsOk = .error Err.attributeError
    ∧ sortImageFiles ["10.png", "9.png", "2.png"] = .ok ["2.png", "9.png", "10.png"]
    ∧ Document.load World.init fsNoJson = .error Err.fileNotFoundError
    ∧ Document.load World.init fsFile = .error Err.attributeError :=
  ⟨rfl, rfl, rfl, rfl⟩
